import Mathlib

/-!
Verification development for the SIO socket layer (src/socketio.c).

The C module is embedded shallowly.  Stateful platform calls
(socket, connect, send, recv, select, getsockopt, inet_pton) are modelled
by an oracle: each iteration of a transfer loop consumes one platform-call
outcome from a list, and one-shot calls take their outcome as an argument.
The Linux branch of the source (the `__linux__` preprocessor arm) is the
one embedded; the Windows arm differs only in the error-code names and in
`is_connected` not consulting the pending-error state.

Results of a transfer loop are instrumented: besides the C return value
(0 on success, -1 on failure; `none` when the oracle is exhausted before
the loop returns) we record the final `total_bytes`, the list of platform
requests issued (offset into the buffer, byte count requested), and the
number of `sio_select` readiness waits performed.
-/

/-- Embedding of `struct socketio` (declared in the header `socketio.h`,
which is not part of src/; the fields are those the source file reads and
writes: `socket`, `opts`, `timeout`, `maxnfails`). -/
structure SioState where
  socket : Int
  opts : Nat
  timeout : Nat
  maxnfails : Int
deriving DecidableEq

/-- Modelled from the spec: the header `socketio.h` (missing from src/)
defines the invalid-socket sentinel `INV_SOCK`; the spec describes it as a
distinguished sentinel value never aliased to a real socket.  Its concrete
value is immaterial to the claims; we fix -1. -/
def INV_SOCK : Int := -1

/-- Modelled from the spec: the non-blocking option bit tested by the
header macro `IS_NONBLOCK` (the spec's `blocking_mode` flag). -/
def SIO_NONBLOCK : Nat := 1

/-- Embedding of the header macro `IS_NONBLOCK(sio)`: tests the
non-blocking option bit in `sio->opts`. -/
def IS_NONBLOCK (s : SioState) : Bool := s.opts &&& SIO_NONBLOCK != 0

/-- Embedding of `sio_set_option`: `sio->opts |= opt`. -/
def sio_set_option (s : SioState) (opt : Nat) : SioState :=
  ⟨s.socket, s.opts ||| opt, s.timeout, s.maxnfails⟩

/-- Embedding of `sio_set_timeout`: `sio->timeout = s`. -/
def sio_set_timeout (s : SioState) (t : Nat) : SioState :=
  ⟨s.socket, s.opts, t, s.maxnfails⟩

/-- Embedding of `sio_set_maxnfails`: `sio->maxnfails = n`. -/
def sio_set_maxnfails (s : SioState) (n : Int) : SioState :=
  ⟨s.socket, s.opts, s.timeout, n⟩

/-- Embedding of `sio_close`: the platform `close`/`closesocket` call is a
pure side effect on the descriptor; on the Connection the function
unconditionally sets `sio->socket = INV_SOCK` and cannot fail. -/
def sio_close (s : SioState) : SioState :=
  ⟨INV_SOCK, s.opts, s.timeout, s.maxnfails⟩

/-- Outcomes of the platform calls made by `sio_socket`: the `socket()`
result, the `fcntl(F_GETFL)` result and whether `fcntl(F_SETFL)`
succeeded (returned ≥ 0). -/
structure OpenEnv where
  newSock : Int
  getflRes : Int
  setflOk : Bool
deriving DecidableEq

/-- Embedding of `sio_socket` (Linux arm): store the `socket()` result in
`sio->socket`; on `INV_SOCK` fail; otherwise, when `IS_NONBLOCK`, apply
`O_NONBLOCK` via `fcntl`, and on `flags < 1 || fcntl(...) < 0` take the
`error:` path, which is `sio_close(sio); return -1`. -/
def sio_socket (s : SioState) (env : OpenEnv) : Int × SioState :=
  let s1 : SioState := ⟨env.newSock, s.opts, s.timeout, s.maxnfails⟩
  if env.newSock = INV_SOCK then (-1, s1)
  else if IS_NONBLOCK s1 then
    if env.getflRes < 1 ∨ ¬ env.setflOk then (-1, sio_close s1) else (0, s1)
  else (0, s1)

/-- Outcome of one platform `send`/`recv` call inside a transfer loop:
`ok n` is a non-error return of `n ≥ 0` bytes; `errWouldBlock` is
`SOCK_ERR` with `errno` in {EAGAIN, EWOULDBLOCK}; `errOther` is
`SOCK_ERR` with any other `errno`. -/
inductive SioEvent where
  | ok (n : Nat)
  | errWouldBlock
  | errOther
deriving DecidableEq

/-- Instrumented result of a transfer loop: `ret` is the C return value
(`none` when the event oracle ran out before the loop returned), `total`
the final `total_bytes`, `requests` the (offset, count) of every platform
`send`/`recv` call issued, and `nselects` the number of `sio_select`
readiness waits performed. -/
structure RunResult where
  ret : Option Int
  total : Nat
  requests : List (Nat × Nat)
  nselects : Nat
deriving DecidableEq

/-- Embedding of the `sio_send` loop body (Linux arm).  State is
`(total_bytes, nfails)`; each iteration issues a platform send of
`len - total_bytes` bytes at offset `total_bytes`.  On `SOCK_ERR`:
`nfails++`; a would-block errno leads to `sio_select(sio, SELECT_WRITE)`
(counted) followed by the `nfails >= maxnfails` check returning -1; any
other errno returns -1 at once.  A non-error return `temp` adds `temp` to
`total_bytes` and resets `nfails` to 0. -/
def sio_send_go (m : Int) (len : Nat) : Nat → Int → List SioEvent → RunResult
  | total, _, [] =>
    if total < len then ⟨none, total, [], 0⟩ else ⟨some 0, total, [], 0⟩
  | total, _, SioEvent.ok n :: rest =>
    if total < len then
      ⟨(sio_send_go m len (total + n) 0 rest).ret,
       (sio_send_go m len (total + n) 0 rest).total,
       (total, len - total) :: (sio_send_go m len (total + n) 0 rest).requests,
       (sio_send_go m len (total + n) 0 rest).nselects⟩
    else ⟨some 0, total, [], 0⟩
  | total, nfails, SioEvent.errWouldBlock :: rest =>
    if total < len then
      if nfails + 1 ≥ m then ⟨some (-1), total, [(total, len - total)], 1⟩
      else
        ⟨(sio_send_go m len total (nfails + 1) rest).ret,
         (sio_send_go m len total (nfails + 1) rest).total,
         (total, len - total) :: (sio_send_go m len total (nfails + 1) rest).requests,
         (sio_send_go m len total (nfails + 1) rest).nselects + 1⟩
    else ⟨some 0, total, [], 0⟩
  | total, _, SioEvent.errOther :: _ =>
    if total < len then ⟨some (-1), total, [(total, len - total)], 0⟩
    else ⟨some 0, total, [], 0⟩

/-- Embedding of `sio_send`: the loop starts with
`total_bytes = 0, nfails = 0` and uses `sio->maxnfails`. -/
def sio_send (sio : SioState) (len : Nat) (evs : List SioEvent) : RunResult :=
  sio_send_go sio.maxnfails len 0 0 evs

/-- Embedding of the `sio_recv` loop body (Linux arm).  Identical to the
send loop (the readiness wait direction is `SELECT_READ`) except for the
non-error branch: `temp > 0` adds to `total_bytes` and resets `nfails`,
while `temp == 0` (orderly peer close) returns -1 immediately. -/
def sio_recv_go (m : Int) (len : Nat) : Nat → Int → List SioEvent → RunResult
  | total, _, [] =>
    if total < len then ⟨none, total, [], 0⟩ else ⟨some 0, total, [], 0⟩
  | total, _, SioEvent.ok n :: rest =>
    if total < len then
      if 0 < n then
        ⟨(sio_recv_go m len (total + n) 0 rest).ret,
         (sio_recv_go m len (total + n) 0 rest).total,
         (total, len - total) :: (sio_recv_go m len (total + n) 0 rest).requests,
         (sio_recv_go m len (total + n) 0 rest).nselects⟩
      else ⟨some (-1), total, [(total, len - total)], 0⟩
    else ⟨some 0, total, [], 0⟩
  | total, nfails, SioEvent.errWouldBlock :: rest =>
    if total < len then
      if nfails + 1 ≥ m then ⟨some (-1), total, [(total, len - total)], 1⟩
      else
        ⟨(sio_recv_go m len total (nfails + 1) rest).ret,
         (sio_recv_go m len total (nfails + 1) rest).total,
         (total, len - total) :: (sio_recv_go m len total (nfails + 1) rest).requests,
         (sio_recv_go m len total (nfails + 1) rest).nselects + 1⟩
    else ⟨some 0, total, [], 0⟩
  | total, _, SioEvent.errOther :: _ =>
    if total < len then ⟨some (-1), total, [(total, len - total)], 0⟩
    else ⟨some 0, total, [], 0⟩

/-- Embedding of `sio_recv`: the loop starts with
`total_bytes = 0, nfails = 0` and uses `sio->maxnfails`. -/
def sio_recv (sio : SioState) (len : Nat) (evs : List SioEvent) : RunResult :=
  sio_recv_go sio.maxnfails len 0 0 evs

/-- Sanity condition on an event oracle: every non-error platform result
returns at most the number of bytes that would be requested at that point
of the run (a real `send`/`recv` never transfers more than asked). -/
def okBounded (len : Nat) : Nat → List SioEvent → Bool
  | _, [] => true
  | total, SioEvent.ok n :: rest =>
    decide (n ≤ len - total) && okBounded len (total + n) rest
  | total, SioEvent.errWouldBlock :: rest => okBounded len total rest
  | total, SioEvent.errOther :: rest => okBounded len total rest

/-- Mode argument of `sio_select` for read readiness. -/
def SELECT_READ : Nat := 0

/-- Mode argument of `sio_select` for write readiness. -/
def SELECT_WRITE : Nat := 1

/-- Embedding of `sio_select`: the platform `select` outcome (bounded by
`sio->timeout` seconds) is abstracted as `ready`; the wrapper returns 1
when `select` returned 1 and 0 otherwise.  The `mode` argument selects
the direction, as in the source. -/
def sio_select (mode : Nat) (ready : Bool) : Int :=
  if ready then 1 else 0

/-- Embedding of `is_connected` (Linux arm): one `sio_select` in
`SELECT_WRITE` mode; if it reports ready, read the pending error via
`getsockopt(SO_ERROR)` (abstracted as `soErr`): nonzero means -1, zero
means 0; not ready means -1. -/
def is_connected (ready : Bool) (soErr : Int) : Int :=
  if sio_select SELECT_WRITE ready = 1 then
    if soErr ≠ 0 then -1 else 0
  else -1

/-- Outcome of the platform `connect` call in `sio_connect`: immediate
success, failure with `errno == EINPROGRESS` (the would-block /
in-progress indication of a non-blocking connect on the Linux arm), or
failure with any other errno. -/
inductive ConnectOutcome where
  | ok
  | errInProgress
  | errOther
deriving DecidableEq

/-- Instrumented result of `sio_connect`: the C return value, whether a
platform `connect` attempt was issued, and how many `sio_select`
readiness waits ran. -/
structure ConnectTrace where
  ret : Int
  attempted : Bool
  nselects : Nat
deriving DecidableEq

/-- Embedding of `sio_connect` (Linux arm).  The source builds the
address, calls `inet_pton(AF_INET, host, ...)` and DISCARDS its return
value (`parseOk` here), then always issues the `connect` attempt: on
immediate success return 0; on `SOCK_ERROR` with `errno == EINPROGRESS`
the outcome is `is_connected` (one readiness wait); on any other errno
return -1. -/
def sio_connect (parseOk : Bool) (co : ConnectOutcome) (ready : Bool)
    (soErr : Int) : ConnectTrace :=
  match co with
  | ConnectOutcome.ok => ⟨0, true, 0⟩
  | ConnectOutcome.errInProgress => ⟨is_connected ready soErr, true, 1⟩
  | ConnectOutcome.errOther => ⟨-1, true, 0⟩

/-- Concrete Connection used in witnesses: `maxnfails = 3`. -/
def testSio : SioState := ⟨5, 1, 1, 3⟩

/-- Concrete Connection used in witnesses: `maxnfails = 1`. -/
def timeoutSio : SioState := ⟨5, 1, 1, 1⟩

theorem sio_send_example : sio_send testSio 2 [SioEvent.ok 2] = ⟨some 0, 2, [(0, 2)], 0⟩ := by
  decide

theorem sio_recv_example :
    sio_recv testSio 2 [SioEvent.errWouldBlock, SioEvent.ok 1, SioEvent.ok 1] =
      ⟨some 0, 2, [(0, 2), (0, 2), (1, 1)], 1⟩ := by
  decide

/-- Helper: once `total_bytes` has reached `len`, either loop returns 0
immediately with no further platform call. -/
theorem send_go_done (m : Int) (len total : Nat) (nfails : Int)
    (evs : List SioEvent) (h : len ≤ total) :
    sio_send_go m len total nfails evs = ⟨some 0, total, [], 0⟩ := by
  have h2 : ¬ total < len := by omega
  cases evs with
  | nil => simp [sio_send_go, h2]
  | cons e rest => cases e <;> simp [sio_send_go, h2]

/-- Helper: receive analogue of `send_go_done`. -/
theorem recv_go_done (m : Int) (len total : Nat) (nfails : Int)
    (evs : List SioEvent) (h : len ≤ total) :
    sio_recv_go m len total nfails evs = ⟨some 0, total, [], 0⟩ := by
  have h2 : ¬ total < len := by omega
  cases evs with
  | nil => simp [sio_recv_go, h2]
  | cons e rest => cases e <;> simp [sio_recv_go, h2]

/-- Helper invariant for the send loop: when the oracle never over-delivers,
`total_bytes` stays within `len`, a 0 return implies `total_bytes = len`,
and every platform request (offset, count) lies inside the buffer with
`offset + count = len`. -/
theorem send_go_inv (m : Int) (len : Nat) :
    ∀ (evs : List SioEvent) (total : Nat) (nfails : Int),
      total ≤ len → okBounded len total evs = true →
      (sio_send_go m len total nfails evs).total ≤ len ∧
      ((sio_send_go m len total nfails evs).ret = some 0 →
        (sio_send_go m len total nfails evs).total = len) ∧
      (∀ p ∈ (sio_send_go m len total nfails evs).requests,
        p.1 ≤ len ∧ p.1 + p.2 = len) := by
  intro evs
  induction evs with
  | nil =>
    intro total nfails hle _
    by_cases h : total < len <;> simp [sio_send_go, h] <;> omega
  | cons e rest ih =>
    intro total nfails hle hb
    cases e with
    | ok n =>
      by_cases h : total < len
      · simp only [okBounded, Bool.and_eq_true, decide_eq_true_eq] at hb
        have h2 : total + n ≤ len := by omega
        have hr := ih (total + n) 0 h2 hb.2
        simp only [sio_send_go, if_pos h]
        refine ⟨hr.1, hr.2.1, ?_⟩
        intro p hp
        rcases List.mem_cons.mp hp with hp | hp
        · subst hp; constructor <;> omega
        · exact hr.2.2 p hp
      · simp [sio_send_go, h]; omega
    | errWouldBlock =>
      by_cases h : total < len
      · simp only [okBounded] at hb
        by_cases hf : nfails + 1 ≥ m
        · simp only [sio_send_go, if_pos h, if_pos hf]
          refine ⟨hle, by simp, ?_⟩
          intro p hp
          simp only [List.mem_singleton] at hp
          subst hp; constructor <;> omega
        · have hr := ih total (nfails + 1) hle hb
          simp only [sio_send_go, if_pos h, if_neg hf]
          refine ⟨hr.1, hr.2.1, ?_⟩
          intro p hp
          rcases List.mem_cons.mp hp with hp | hp
          · subst hp; constructor <;> omega
          · exact hr.2.2 p hp
      · simp [sio_send_go, h]; omega
    | errOther =>
      by_cases h : total < len
      · simp only [sio_send_go, if_pos h]
        refine ⟨hle, by simp, ?_⟩
        intro p hp
        simp only [List.mem_singleton] at hp
        subst hp; constructor <;> omega
      · simp [sio_send_go, h]; omega

/-- Helper invariant for the receive loop, mirroring `send_go_inv`. -/
theorem recv_go_inv (m : Int) (len : Nat) :
    ∀ (evs : List SioEvent) (total : Nat) (nfails : Int),
      total ≤ len → okBounded len total evs = true →
      (sio_recv_go m len total nfails evs).total ≤ len ∧
      ((sio_recv_go m len total nfails evs).ret = some 0 →
        (sio_recv_go m len total nfails evs).total = len) ∧
      (∀ p ∈ (sio_recv_go m len total nfails evs).requests,
        p.1 ≤ len ∧ p.1 + p.2 = len) := by
  intro evs
  induction evs with
  | nil =>
    intro total nfails hle _
    by_cases h : total < len <;> simp [sio_recv_go, h] <;> omega
  | cons e rest ih =>
    intro total nfails hle hb
    cases e with
    | ok n =>
      by_cases h : total < len
      · simp only [okBounded, Bool.and_eq_true, decide_eq_true_eq] at hb
        by_cases hn : 0 < n
        · have h2 : total + n ≤ len := by omega
          have hr := ih (total + n) 0 h2 hb.2
          simp only [sio_recv_go, if_pos h, if_pos hn]
          refine ⟨hr.1, hr.2.1, ?_⟩
          intro p hp
          rcases List.mem_cons.mp hp with hp | hp
          · subst hp; constructor <;> omega
          · exact hr.2.2 p hp
        · simp only [sio_recv_go, if_pos h, if_neg hn]
          refine ⟨hle, by simp, ?_⟩
          intro p hp
          simp only [List.mem_singleton] at hp
          subst hp; constructor <;> omega
      · simp [sio_recv_go, h]; omega
    | errWouldBlock =>
      by_cases h : total < len
      · simp only [okBounded] at hb
        by_cases hf : nfails + 1 ≥ m
        · simp only [sio_recv_go, if_pos h, if_pos hf]
          refine ⟨hle, by simp, ?_⟩
          intro p hp
          simp only [List.mem_singleton] at hp
          subst hp; constructor <;> omega
        · have hr := ih total (nfails + 1) hle hb
          simp only [sio_recv_go, if_pos h, if_neg hf]
          refine ⟨hr.1, hr.2.1, ?_⟩
          intro p hp
          rcases List.mem_cons.mp hp with hp | hp
          · subst hp; constructor <;> omega
          · exact hr.2.2 p hp
      · simp [sio_recv_go, h]; omega
    | errOther =>
      by_cases h : total < len
      · simp only [sio_recv_go, if_pos h]
        refine ⟨hle, by simp, ?_⟩
        intro p hp
        simp only [List.mem_singleton] at hp
        subst hp; constructor <;> omega
      · simp [sio_recv_go, h]; omega

/-- Helper: from a progress-free state, a block of `j` consecutive
would-block events with `nfails + j = maxnfails` drives the send loop to
return -1, issuing exactly `j` platform requests of the full remaining
length and `j` readiness waits. -/
theorem send_go_wb_run (m : Int) (len : Nat) (evs : List SioEvent)
    (hlen : 0 < len) :
    ∀ (j : Nat) (nfails : Int), 0 < j → nfails + (j : Int) = m →
      sio_send_go m len 0 nfails
          (List.replicate j SioEvent.errWouldBlock ++ evs) =
        ⟨some (-1), 0, List.replicate j (0, len), j⟩ := by
  intro j
  induction j with
  | zero => intro nfails h0 _; omega
  | succ j ih =>
    intro nfails _ hm
    rw [List.replicate_succ, List.cons_append]
    by_cases hj : j = 0
    · subst hj
      have hge : nfails + 1 ≥ m := by push_cast at hm; omega
      simp [sio_send_go, hlen, hge]
    · have hlt : ¬ nfails + 1 ≥ m := by push_cast at hm; omega
      have hr := ih (nfails + 1) (by omega) (by push_cast at hm ⊢; omega)
      simp [sio_send_go, hlen, hlt, hr, List.replicate_succ]

/-- Helper: receive analogue of `send_go_wb_run`. -/
theorem recv_go_wb_run (m : Int) (len : Nat) (evs : List SioEvent)
    (hlen : 0 < len) :
    ∀ (j : Nat) (nfails : Int), 0 < j → nfails + (j : Int) = m →
      sio_recv_go m len 0 nfails
          (List.replicate j SioEvent.errWouldBlock ++ evs) =
        ⟨some (-1), 0, List.replicate j (0, len), j⟩ := by
  intro j
  induction j with
  | zero => intro nfails h0 _; omega
  | succ j ih =>
    intro nfails _ hm
    rw [List.replicate_succ, List.cons_append]
    by_cases hj : j = 0
    · subst hj
      have hge : nfails + 1 ≥ m := by push_cast at hm; omega
      simp [sio_recv_go, hlen, hge]
    · have hlt : ¬ nfails + 1 ≥ m := by push_cast at hm; omega
      have hr := ih (nfails + 1) (by omega) (by push_cast at hm ⊢; omega)
      simp [sio_recv_go, hlen, hlt, hr, List.replicate_succ]

/-- Helper: with the transfer incomplete, an oracle that keeps answering
zero-byte sends never lets the send loop return: the budget never
decrements, so the loop runs as long as the oracle does. -/
theorem send_go_all_zero (m : Int) (len : Nat) :
    ∀ (j : Nat) (total : Nat) (nfails : Int), total < len →
      (sio_send_go m len total nfails
          (List.replicate j (SioEvent.ok 0))).ret = none := by
  intro j
  induction j with
  | zero => intro total nfails h; simp [sio_send_go, h]
  | succ j ih =>
    intro total nfails h
    rw [List.replicate_succ]
    simp only [sio_send_go, if_pos h]
    simpa using ih total 0 h

/-- C1: for every call to `sio_send` or `sio_recv` (over any platform
oracle in which no call transfers more than the bytes requested), a
successful return (0) implies the number of bytes transferred equals
exactly the requested `len`: success is all-or-nothing, and a caller
never observes a short transfer on a successful return. -/
theorem sio_transfer_all_or_nothing (sio : SioState) (len : Nat)
    (evs : List SioEvent) (h : okBounded len 0 evs = true) :
    ((sio_send sio len evs).ret = some 0 → (sio_send sio len evs).total = len) ∧
    ((sio_recv sio len evs).ret = some 0 → (sio_recv sio len evs).total = len) :=
  ⟨(send_go_inv sio.maxnfails len evs 0 0 (Nat.zero_le len) h).2.1,
   (recv_go_inv sio.maxnfails len evs 0 0 (Nat.zero_le len) h).2.1⟩

theorem sio_transfer_all_or_nothing_witness :
    okBounded 2 0 [SioEvent.ok 1, SioEvent.errWouldBlock, SioEvent.ok 1] = true ∧
    (((sio_send testSio 2 [SioEvent.ok 1, SioEvent.errWouldBlock, SioEvent.ok 1]).ret = some 0 →
      (sio_send testSio 2 [SioEvent.ok 1, SioEvent.errWouldBlock, SioEvent.ok 1]).total = 2) ∧
     ((sio_recv testSio 2 [SioEvent.ok 1, SioEvent.errWouldBlock, SioEvent.ok 1]).ret = some 0 →
      (sio_recv testSio 2 [SioEvent.ok 1, SioEvent.errWouldBlock, SioEvent.ok 1]).total = 2)) :=
  ⟨by decide,
   sio_transfer_all_or_nothing testSio 2
     [SioEvent.ok 1, SioEvent.errWouldBlock, SioEvent.ok 1] (by decide)⟩

/-- C9: every platform call issued by the transfer loops requests exactly
`len - total_bytes` bytes at offset `total_bytes`; hence, whenever no
platform call transfers more than it was asked (`okBounded`), the running
total never exceeds `len` and every request (offset, count) satisfies
`offset ≤ len` and `offset + count = len`, so every buffer access stays
inside the caller-supplied `len`-byte region. -/
theorem sio_transfer_stays_in_bounds (sio : SioState) (len : Nat)
    (evs : List SioEvent) (h : okBounded len 0 evs = true) :
    ((sio_send sio len evs).total ≤ len ∧
     ∀ p ∈ (sio_send sio len evs).requests, p.1 ≤ len ∧ p.1 + p.2 = len) ∧
    ((sio_recv sio len evs).total ≤ len ∧
     ∀ p ∈ (sio_recv sio len evs).requests, p.1 ≤ len ∧ p.1 + p.2 = len) :=
  ⟨⟨(send_go_inv sio.maxnfails len evs 0 0 (Nat.zero_le len) h).1,
    (send_go_inv sio.maxnfails len evs 0 0 (Nat.zero_le len) h).2.2⟩,
   ⟨(recv_go_inv sio.maxnfails len evs 0 0 (Nat.zero_le len) h).1,
    (recv_go_inv sio.maxnfails len evs 0 0 (Nat.zero_le len) h).2.2⟩⟩

theorem sio_transfer_stays_in_bounds_witness :
    okBounded 3 0 [SioEvent.ok 2, SioEvent.ok 1] = true ∧
    (((sio_send testSio 3 [SioEvent.ok 2, SioEvent.ok 1]).total ≤ 3 ∧
      ∀ p ∈ (sio_send testSio 3 [SioEvent.ok 2, SioEvent.ok 1]).requests,
        p.1 ≤ 3 ∧ p.1 + p.2 = 3) ∧
     ((sio_recv testSio 3 [SioEvent.ok 2, SioEvent.ok 1]).total ≤ 3 ∧
      ∀ p ∈ (sio_recv testSio 3 [SioEvent.ok 2, SioEvent.ok 1]).requests,
        p.1 ≤ 3 ∧ p.1 + p.2 = 3)) :=
  ⟨by decide,
   sio_transfer_stays_in_bounds testSio 3 [SioEvent.ok 2, SioEvent.ok 1] (by decide)⟩

/-- C2: in both `sio_send` and `sio_recv`, `maxnfails` consecutive
would-block outcomes with zero bytes of progress make the loop terminate
with the failure return -1 (the timeout failure of the spec), after
exactly `maxnfails` platform calls and `maxnfails` readiness waits; the
remaining oracle is untouched, so the loop never hangs in that
situation. -/
theorem sio_transfer_timeout_on_exhaustion (sio : SioState) (len k : Nat)
    (evs : List SioEvent) (hm : sio.maxnfails = (k : Int)) (hk : 0 < k)
    (hlen : 0 < len) :
    sio_send sio len (List.replicate k SioEvent.errWouldBlock ++ evs) =
      ⟨some (-1), 0, List.replicate k (0, len), k⟩ ∧
    sio_recv sio len (List.replicate k SioEvent.errWouldBlock ++ evs) =
      ⟨some (-1), 0, List.replicate k (0, len), k⟩ := by
  constructor
  · simp only [sio_send, hm]
    exact send_go_wb_run (k : Int) len evs hlen k 0 hk (by omega)
  · simp only [sio_recv, hm]
    exact recv_go_wb_run (k : Int) len evs hlen k 0 hk (by omega)

theorem sio_transfer_timeout_on_exhaustion_witness :
    (testSio.maxnfails = ((3 : Nat) : Int) ∧ 0 < 3 ∧ 0 < 4) ∧
    (sio_send testSio 4 (List.replicate 3 SioEvent.errWouldBlock ++ []) =
       ⟨some (-1), 0, List.replicate 3 (0, 4), 3⟩ ∧
     sio_recv testSio 4 (List.replicate 3 SioEvent.errWouldBlock ++ []) =
       ⟨some (-1), 0, List.replicate 3 (0, 4), 3⟩) :=
  ⟨⟨by decide, by decide, by decide⟩,
   sio_transfer_timeout_on_exhaustion testSio 4 3 [] (by decide) (by decide) (by decide)⟩

/-- C3: in both transfer loops a platform call that transfers `n > 0`
bytes adds `n` to the running total and resets the consecutive-failure
counter to 0 (whatever it was), so a would-block budget that is never hit
consecutively does not accumulate: in particular the spec's scenario
(would-block, would-block, 1-byte success, then `maxnfails - 1` further
would-blocks) still succeeds for a 1-byte transfer whenever
`maxnfails ≥ 3`. -/
theorem sio_progress_resets_failure_counter (sio : SioState) (k : Nat)
    (hm : sio.maxnfails = (k : Int)) (hk : 3 ≤ k) :
    (∀ (m : Int) (len total : Nat) (nfails : Int) (n : Nat)
        (rest : List SioEvent), total < len → 0 < n →
      sio_send_go m len total nfails (SioEvent.ok n :: rest) =
        ⟨(sio_send_go m len (total + n) 0 rest).ret,
         (sio_send_go m len (total + n) 0 rest).total,
         (total, len - total) :: (sio_send_go m len (total + n) 0 rest).requests,
         (sio_send_go m len (total + n) 0 rest).nselects⟩) ∧
    (∀ (m : Int) (len total : Nat) (nfails : Int) (n : Nat)
        (rest : List SioEvent), total < len → 0 < n →
      sio_recv_go m len total nfails (SioEvent.ok n :: rest) =
        ⟨(sio_recv_go m len (total + n) 0 rest).ret,
         (sio_recv_go m len (total + n) 0 rest).total,
         (total, len - total) :: (sio_recv_go m len (total + n) 0 rest).requests,
         (sio_recv_go m len (total + n) 0 rest).nselects⟩) ∧
    ((sio_send sio 1 (SioEvent.errWouldBlock :: SioEvent.errWouldBlock ::
         SioEvent.ok 1 :: List.replicate (k - 1) SioEvent.errWouldBlock)).ret =
       some 0 ∧
     (sio_send sio 1 (SioEvent.errWouldBlock :: SioEvent.errWouldBlock ::
         SioEvent.ok 1 :: List.replicate (k - 1) SioEvent.errWouldBlock)).total = 1) ∧
    ((sio_recv sio 1 (SioEvent.errWouldBlock :: SioEvent.errWouldBlock ::
         SioEvent.ok 1 :: List.replicate (k - 1) SioEvent.errWouldBlock)).ret =
       some 0 ∧
     (sio_recv sio 1 (SioEvent.errWouldBlock :: SioEvent.errWouldBlock ::
         SioEvent.ok 1 :: List.replicate (k - 1) SioEvent.errWouldBlock)).total = 1) := by
  have c1 : ¬ ((0 : Int) + 1 ≥ (k : Int)) := by omega
  have c1a : ¬ ((1 : Int) ≥ (k : Int)) := by omega
  have c2 : ¬ ((1 : Int) + 1 ≥ (k : Int)) := by omega
  have c2a : ¬ ((2 : Int) ≥ (k : Int)) := by omega
  have hds := send_go_done (k : Int) 1 1 0
    (List.replicate (k - 1) SioEvent.errWouldBlock) (le_refl 1)
  have hdr := recv_go_done (k : Int) 1 1 0
    (List.replicate (k - 1) SioEvent.errWouldBlock) (le_refl 1)
  refine ⟨?_, ?_, ?_, ?_⟩
  · intro m len total nfails n rest hlt _
    simp [sio_send_go, hlt]
  · intro m len total nfails n rest hlt hn
    simp [sio_recv_go, hlt, hn]
  · simp [sio_send, hm, sio_send_go, c1, c1a, c2, c2a, hds]
  · simp [sio_recv, hm, sio_recv_go, c1, c1a, c2, c2a, hdr]

theorem sio_progress_resets_failure_counter_witness :
    (testSio.maxnfails = ((3 : Nat) : Int) ∧ 3 ≤ 3) ∧
    ((sio_send testSio 1 (SioEvent.errWouldBlock :: SioEvent.errWouldBlock ::
         SioEvent.ok 1 :: List.replicate (3 - 1) SioEvent.errWouldBlock)).ret =
       some 0 ∧
     (sio_send testSio 1 (SioEvent.errWouldBlock :: SioEvent.errWouldBlock ::
         SioEvent.ok 1 :: List.replicate (3 - 1) SioEvent.errWouldBlock)).total = 1) ∧
    ((sio_recv testSio 1 (SioEvent.errWouldBlock :: SioEvent.errWouldBlock ::
         SioEvent.ok 1 :: List.replicate (3 - 1) SioEvent.errWouldBlock)).ret =
       some 0 ∧
     (sio_recv testSio 1 (SioEvent.errWouldBlock :: SioEvent.errWouldBlock ::
         SioEvent.ok 1 :: List.replicate (3 - 1) SioEvent.errWouldBlock)).total = 1) :=
  ⟨⟨by decide, by decide⟩,
   (sio_progress_resets_failure_counter testSio 3 (by decide) (by decide)).2.2.1,
   (sio_progress_resets_failure_counter testSio 3 (by decide) (by decide)).2.2.2⟩

/-- C4: when the `connect` attempt fails with the in-progress /
would-block indication, `sio_connect` performs exactly one readiness wait
(`is_connected` runs one `sio_select` in write mode), returns 0 if and
only if the socket became write-ready and its pending `SO_ERROR` state
reads 0, and otherwise returns -1 (`ConnectError`); it never loops on
repeated would-block indications. -/
theorem sio_connect_in_progress_single_wait (parseOk ready : Bool)
    (soErr : Int) :
    (sio_connect parseOk ConnectOutcome.errInProgress ready soErr).nselects = 1 ∧
    ((sio_connect parseOk ConnectOutcome.errInProgress ready soErr).ret = 0 ↔
      ready = true ∧ soErr = 0) ∧
    ((sio_connect parseOk ConnectOutcome.errInProgress ready soErr).ret = 0 ∨
     (sio_connect parseOk ConnectOutcome.errInProgress ready soErr).ret = -1) := by
  cases ready <;> by_cases h : soErr = 0 <;>
    simp [sio_connect, is_connected, sio_select, h]

/-- C5 counterexample: with a host string that fails IPv4 parsing
(`inet_pton` outcome `false`), `sio_connect` still issues the platform
`connect` attempt, and when that attempt happens to succeed it even
returns 0 — it does not return a parse error synchronously and does not
skip the socket operation. -/
theorem sio_connect_attempts_despite_parse_failure :
    (sio_connect false ConnectOutcome.ok true 0).attempted = true ∧
    (sio_connect false ConnectOutcome.ok true 0).ret = 0 :=
  ⟨rfl, rfl⟩

/-- C5 amended: `sio_connect` ignores the result of `inet_pton` entirely:
a `connect` attempt is issued for every host string, parsing or not, and
the returned value is a function of the connect outcome alone (the run
with a failed parse is indistinguishable from the run with a successful
one). -/
theorem sio_connect_ignores_parse_result (parseOk : Bool)
    (co : ConnectOutcome) (ready : Bool) (soErr : Int) :
    (sio_connect parseOk co ready soErr).attempted = true ∧
    sio_connect parseOk co ready soErr = sio_connect true co ready soErr := by
  cases co <;> exact ⟨rfl, rfl⟩

/-- C6 counterexample: the three terminal failures of `sio_recv` — a
zero-byte read with no error (peer closed), exhaustion of the would-block
budget, and any other platform error — all produce the identical
observable result `-1`, so the peer-closed outcome is not distinguishable
by the caller from the other error kinds. -/
theorem sio_recv_failures_share_return_value :
    (sio_recv testSio 5 [SioEvent.ok 0]).ret = some (-1) ∧
    (sio_recv testSio 5 [SioEvent.errOther]).ret = some (-1) ∧
    (sio_recv timeoutSio 5 [SioEvent.errWouldBlock]).ret = some (-1) := by
  refine ⟨?_, ?_, ?_⟩ <;> decide

/-- C6 amended: in `sio_recv` a platform read that returns zero bytes
with no error is terminal: the loop stops at once (no retry, no readiness
wait) and returns the failure value -1; this is the same return value as
the would-block-budget timeout and as any other platform error, so the
caller cannot distinguish the peer-closed case from the other failure
kinds by the result. -/
theorem sio_recv_zero_byte_terminal (m : Int) (len total : Nat)
    (nfails : Int) (rest : List SioEvent) (h : total < len) :
    sio_recv_go m len total nfails (SioEvent.ok 0 :: rest) =
      ⟨some (-1), total, [(total, len - total)], 0⟩ ∧
    (sio_recv_go m len total nfails (SioEvent.errOther :: rest)).ret = some (-1) ∧
    (nfails + 1 ≥ m →
      (sio_recv_go m len total nfails (SioEvent.errWouldBlock :: rest)).ret =
        some (-1)) := by
  refine ⟨by simp [sio_recv_go, h], by simp [sio_recv_go, h], ?_⟩
  intro hf
  simp [sio_recv_go, h, hf]

theorem sio_recv_zero_byte_terminal_witness :
    (0 < 5 ∧ (2 : Int) + 1 ≥ 3) ∧
    (sio_recv_go 3 5 0 2 [SioEvent.ok 0] = ⟨some (-1), 0, [(0, 5)], 0⟩ ∧
     (sio_recv_go 3 5 0 2 [SioEvent.errOther]).ret = some (-1) ∧
     (sio_recv_go 3 5 0 2 [SioEvent.errWouldBlock]).ret = some (-1)) :=
  ⟨⟨by decide, by decide⟩,
   (sio_recv_zero_byte_terminal 3 5 0 2 [] (by decide)).1,
   (sio_recv_zero_byte_terminal 3 5 0 2 [] (by decide)).2.1,
   (sio_recv_zero_byte_terminal 3 5 0 2 [] (by decide)).2.2 (by decide)⟩

/-- C7: `sio_close` is total (never fails), unconditionally leaves the
Connection handle at the `INV_SOCK` sentinel, and is idempotent: closing
an already-closed or never-connected Connection is safe and leaves the
sentinel in place — in particular `sio_close` after `sio_socket` with no
connect leaves the Connection safely re-closable. -/
theorem sio_close_idempotent_sentinel (s : SioState) (env : OpenEnv) :
    (sio_close s).socket = INV_SOCK ∧
    sio_close (sio_close s) = sio_close s ∧
    (sio_close (sio_socket s env).2).socket = INV_SOCK ∧
    sio_close (sio_close (sio_socket s env).2) = sio_close (sio_socket s env).2 :=
  ⟨rfl, rfl, rfl, rfl⟩

/-- C8: `sio_send` with a zero-length buffer returns success immediately:
the loop guard `total_bytes < len` is false at entry, so no platform send
call is issued, no readiness wait runs, no retry iteration happens, and
the Connection state is untouched (the loop never writes to it). -/
theorem sio_send_zero_length_noop (sio : SioState) (evs : List SioEvent) :
    sio_send sio 0 evs = ⟨some 0, 0, [], 0⟩ := by
  cases evs with
  | nil => simp [sio_send, sio_send_go]
  | cons e rest => cases e <;> simp [sio_send, sio_send_go]

/-- C10: in `sio_send` a non-error platform result of zero bytes adds
nothing to `total_bytes` yet resets the consecutive-failure counter to 0
(it is treated as progress), unlike `sio_recv` where a zero-byte read is
terminal; consequently an oracle that keeps answering zero-byte sends
keeps the loop running for as long as the oracle lasts — the bounded-retry
termination guarantee does not cover such executions. -/
theorem sio_send_zero_byte_progress (m : Int) (len total : Nat)
    (nfails : Int) (rest : List SioEvent) (h : total < len) :
    sio_send_go m len total nfails (SioEvent.ok 0 :: rest) =
      ⟨(sio_send_go m len total 0 rest).ret,
       (sio_send_go m len total 0 rest).total,
       (total, len - total) :: (sio_send_go m len total 0 rest).requests,
       (sio_send_go m len total 0 rest).nselects⟩ ∧
    sio_recv_go m len total nfails (SioEvent.ok 0 :: rest) =
      ⟨some (-1), total, [(total, len - total)], 0⟩ ∧
    (∀ j : Nat,
      (sio_send_go m len total nfails
          (List.replicate j (SioEvent.ok 0))).ret = none) := by
  refine ⟨by simp [sio_send_go, h], by simp [sio_recv_go, h], ?_⟩
  intro j
  exact send_go_all_zero m len j total nfails h

theorem sio_send_zero_byte_progress_witness :
    0 < 1 ∧
    (sio_send_go 3 1 0 2 [SioEvent.ok 0] =
       ⟨(sio_send_go 3 1 0 0 []).ret, (sio_send_go 3 1 0 0 []).total,
        (0, 1) :: (sio_send_go 3 1 0 0 []).requests,
        (sio_send_go 3 1 0 0 []).nselects⟩ ∧
     sio_recv_go 3 1 0 2 [SioEvent.ok 0] = ⟨some (-1), 0, [(0, 1)], 0⟩ ∧
     (∀ j : Nat,
       (sio_send_go 3 1 0 2 (List.replicate j (SioEvent.ok 0))).ret = none)) :=
  ⟨by decide, sio_send_zero_byte_progress 3 1 0 2 [] (by decide)⟩
